import Mathlib

/-!
Verification of the Solar-Ap design editor.

The React components of the repository (DesignEditorPage, FieldSegmentLayer,
the MapTiler 3D viewer, MaptalksViewer) are embedded shallowly: coordinates
become rational pairs, component callbacks become pure state-transition
functions.  The planar layout geometry engine lives in src/utils/geometry.ts,
which is absent from the repository snapshot (only its import list and call
sites are visible); those definitions are modelled from the specification and
are marked as such in their doc comments.
-/

/-- Geographic point as Leaflet's LatLngTuple: (latitude, longitude) degrees. -/
abbrev LatLngT : Type := ℚ × ℚ

/-- Planar point: meters in the local frame, or container pixels. -/
abbrev PlanarPt : Type := ℚ × ℚ

def padd (a b : PlanarPt) : PlanarPt := (a.1 + b.1, a.2 + b.2)

def psub (a b : PlanarPt) : PlanarPt := (a.1 - b.1, a.2 - b.2)

def psmul (c : ℚ) (a : PlanarPt) : PlanarPt := (c * a.1, c * a.2)

def cross (a b : PlanarPt) : ℚ := a.1 * b.2 - b.1 * a.2

/-- Fuel-bounded Newton iteration for the integer square root; the fuel is
consumed once per refinement step, and the guess strictly decreases, so any
fuel at least the starting guess yields the exact integer square root. -/
def isqrtAux : ℕ → ℕ → ℕ → ℕ
  | 0, _, g => g
  | fuel + 1, n, g =>
    if (g + n / g) / 2 < g then isqrtAux fuel n ((g + n / g) / 2) else g

/-- Integer square root by Newton iteration on explicit fuel. -/
def isqrt (n : ℕ) : ℕ := if n ≤ 1 then n else isqrtAux n n (n / 2)

/-- Rational stand-in for the double-precision Math.sqrt of the source: exact
on arguments whose numerator times denominator is a perfect square, a floor
approximation otherwise (the source's floating-point sqrt is likewise
approximate). -/
def ratSqrt (q : ℚ) : ℚ :=
  if q ≤ 0 then 0 else (isqrt (q.num.toNat * q.den) : ℚ) / (q.den : ℚ)

def PIQ : ℚ := 355 / 113

/-- Rational stand-in for Math.cos of an angle given in degrees (truncated
Taylor series; the source uses double precision). -/
def cosQ (deg : ℚ) : ℚ :=
  1 - (deg * PIQ / 180) ^ 2 / 2 + (deg * PIQ / 180) ^ 4 / 24 -
    (deg * PIQ / 180) ^ 6 / 720

/-- Rational stand-in for Math.sin of an angle given in degrees. -/
def sinQ (deg : ℚ) : ℚ :=
  deg * PIQ / 180 - (deg * PIQ / 180) ^ 3 / 6 + (deg * PIQ / 180) ^ 5 / 120

def FEET_PER_METER : ℚ := 328084 / 100000

def FEET_TO_METERS : ℚ := 3048 / 10000

def METERS_PER_DEGREE : ℚ := 111320

/-- Cyclic edge list of a polygon: (p_i, p_{i+1}) with wraparound. -/
def edgePairs (l : List PlanarPt) : List (PlanarPt × PlanarPt) :=
  match l with
  | [] => []
  | p :: rest => l.zip (rest ++ [p])

/-- Twice the signed shoelace area of a planar polygon. -/
def signedArea2 (l : List PlanarPt) : ℚ :=
  ((edgePairs l).map (fun e => cross e.1 e.2)).sum

/-- The live Leaflet map object as the geometry helpers see it: a container
point projection and its inverse (latLngToContainerPoint and
containerPointToLatLng). -/
structure MapView where
  latLngToContainerPoint : LatLngT → PlanarPt
  containerPointToLatLng : PlanarPt → LatLngT

/-- A viewport placeholder whose projection is the identity. -/
def dummyView : MapView := { latLngToContainerPoint := id, containerPointToLatLng := id }

/-- Modelled from the spec: section 4.1 Projection Adapter of the missing
src/utils/geometry.ts.  Equirectangular local projection about an anchor,
scaled by the cosine of the anchor latitude; output in meters. -/
def toPlanar (p anchor : LatLngT) : PlanarPt :=
  ((p.2 - anchor.2) * cosQ anchor.1 * METERS_PER_DEGREE,
   (p.1 - anchor.1) * METERS_PER_DEGREE)

/-- Modelled from the spec: section 4.1, inverse projection of toPlanar. -/
def toGeo (q : PlanarPt) (anchor : LatLngT) : LatLngT :=
  (anchor.1 + q.2 / METERS_PER_DEGREE,
   anchor.2 + q.1 / (cosQ anchor.1 * METERS_PER_DEGREE))

/-- Modelled from the spec: section 4.1, the per-computation anchor chosen as
the boundary centroid (arithmetic mean of the points). -/
def centroid (pts : List LatLngT) : LatLngT :=
  match pts with
  | [] => (0, 0)
  | _ =>
    ((pts.map Prod.fst).sum / pts.length, (pts.map Prod.snd).sum / pts.length)

/-- All boundary points projected into the local frame anchored at the
boundary centroid. -/
def projectAll (pts : List LatLngT) : List PlanarPt :=
  pts.map (fun p => toPlanar p (centroid pts))

/-- Modelled from the spec: section 4.2 Area Calculator of the missing
src/utils/geometry.ts (calculatePolygonArea).  Unsigned shoelace area of the
projected boundary, converted to square feet; the live map argument is
unused, per the anchor-only projection contract. -/
def calculatePolygonArea (pts : List LatLngT) (v : MapView) : ℚ :=
  |signedArea2 (projectAll pts)| / 2 * FEET_PER_METER * FEET_PER_METER

/-- Modelled from the spec: section 4.3 Point-in-Polygon Tester of the missing
src/utils/geometry.ts (isPointInPolygon): crossing-number (even-odd) ray
cast on planar points. -/
def isPointInPolygon (p : PlanarPt) (poly : List PlanarPt) : Bool :=
  (edgePairs poly).foldl
    (fun inside e =>
      if (decide (e.1.2 > p.2) != decide (e.2.2 > p.2)) &&
          decide (p.1 < (e.2.1 - e.1.1) * (p.2 - e.1.2) / (e.2.2 - e.1.2) + e.1.1)
      then !inside else inside)
    false

/-- Modelled from the spec: section 4.4 of the missing src/utils/geometry.ts
(getMidpoint): arithmetic mean of the endpoints in geographic space. -/
def getMidpoint (p1 p2 : LatLngT) : LatLngT :=
  ((p1.1 + p2.1) / 2, (p1.2 + p2.2) / 2)

/-- Modelled from the spec: section 4.4 of the missing src/utils/geometry.ts
(calculateDistanceInFeet): planar Euclidean distance after projection into
the frame anchored at the first point, converted meters to feet. -/
def calculateDistanceInFeet (p1 p2 : LatLngT) (v : MapView) : ℚ :=
  ratSqrt (((toPlanar p2 p1).1 - (toPlanar p1 p1).1) ^ 2 +
      ((toPlanar p2 p1).2 - (toPlanar p1 p1).2) ^ 2) * FEET_PER_METER

def rotL {α : Type} (l : List α) : List α :=
  match l with
  | [] => []
  | a :: t => t ++ [a]

def rotR {α : Type} (l : List α) : List α := (rotL l.reverse).reverse

def zip3 {α β γ : Type} : List α → List β → List γ → List (α × β × γ)
  | a :: as, b :: bs, c :: cs => (a, b, c) :: zip3 as bs cs
  | _, _, _ => []

/-- Inward unit normal of the edge from a to b (left normal for positive
winding sign s, right normal for negative), with the zero-length guard of
the source pattern. -/
def inwardNormal (s : ℚ) (a b : PlanarPt) : PlanarPt :=
  if ratSqrt ((b.1 - a.1) ^ 2 + (b.2 - a.2) ^ 2) = 0 then (0, 0)
  else psmul (s / ratSqrt ((b.1 - a.1) ^ 2 + (b.2 - a.2) ^ 2)) (a.2 - b.2, b.1 - a.1)

/-- Intersection of the line through A and B with the line through C and D,
falling back to fb when the lines are parallel. -/
def lineIntersect (A B C D fb : PlanarPt) : PlanarPt :=
  if cross (psub B A) (psub D C) = 0 then fb
  else padd A (psmul (cross (psub C A) (psub D C) / cross (psub B A) (psub D C)) (psub B A))

/-- Miter-join vertex: intersection of the offset lines of the previous edge
(pp to p) and the current edge (p to pn), both pushed inward by d; the
parallel-edge fallback is the offset image of the shared vertex. -/
def miterVertex (s d : ℚ) (pp p pn : PlanarPt) : PlanarPt :=
  lineIntersect (padd pp (psmul d (inwardNormal s pp p)))
    (padd p (psmul d (inwardNormal s pp p)))
    (padd p (psmul d (inwardNormal s p pn)))
    (padd pn (psmul d (inwardNormal s p pn)))
    (padd p (psmul d (inwardNormal s p pn)))

/-- Modelled from the spec: section 4.5 Polygon Offset Engine of the missing
src/utils/geometry.ts.  Each edge is offset inward by d along its normal,
with the winding sign taken from the polygon's signed area, and consecutive
offset edges are intersected (miter join). -/
def miterOffset (pl : List PlanarPt) (d : ℚ) : List PlanarPt :=
  (zip3 (rotR pl) pl (rotL pl)).map
    (fun t => miterVertex (if 0 ≤ signedArea2 pl then 1 else -1) d t.1 t.2.1 t.2.2)

/-- Modelled from the spec: section 4.5 of the missing src/utils/geometry.ts
(calculateInsetPolygon).  The boundary is projected about its centroid, the
setback (feet) is converted to meters, the polygon is miter-offset inward,
and the result is dropped to the empty polygon when its signed area falls to
zero or flips sign against the original; the live map argument is unused,
per the anchor-only projection contract. -/
def calculateInsetPolygon (pts : List LatLngT) (setbackFeet : ℚ) (v : MapView) :
    List LatLngT :=
  if signedArea2 (miterOffset (projectAll pts) (setbackFeet * FEET_TO_METERS)) = 0 ∨
      signedArea2 (projectAll pts) *
        signedArea2 (miterOffset (projectAll pts) (setbackFeet * FEET_TO_METERS)) < 0
  then []
  else (miterOffset (projectAll pts) (setbackFeet * FEET_TO_METERS)).map
    (fun q => toGeo q (centroid pts))

/-- Catalog module entry (types/project Module): physical spec in feet and
watts, keyed by id for the segment's moduleId lookup. -/
structure PVModule where
  id : String
  width : ℚ
  modLength : ℚ
  wattage : ℚ
deriving DecidableEq

inductive RackingType : Type
  | FixedTilt : RackingType
  | Flat : RackingType
deriving DecidableEq

inductive ModOrientation : Type
  | Portrait : ModOrientation
  | Landscape : ModOrientation
deriving DecidableEq

inductive SegAlign : Type
  | center : SegAlign
  | left : SegAlign
  | right : SegAlign
  | top : SegAlign
  | bottom : SegAlign
deriving DecidableEq

/-- FieldSegment of types/project: the fields constructed in handleStopDrawing
(DesignEditorPage lines 99-120) plus the optional moduleId and moduleLayout
written back by FieldSegmentLayer. -/
structure FieldSegment where
  id : String
  points : List LatLngT
  area : ℚ
  nameplate : ℚ
  moduleCount : ℕ
  azimuth : ℚ
  description : String
  rackingType : RackingType
  moduleTilt : ℚ
  moduleOrientation : ModOrientation
  rowSpacing : ℚ
  moduleSpacing : ℚ
  setback : ℚ
  surfaceHeight : ℚ
  rackingHeight : ℚ
  frameSizeUp : ℕ
  frameSizeWide : ℕ
  frameSpacing : ℚ
  spanRise : ℚ
  alignment : SegAlign
  moduleId : Option String
  moduleLayout : List (List LatLngT)
deriving DecidableEq

/-- Partial FieldSegment as in TypeScript Partial: every field optional; an
absent field leaves the merged segment's field unchanged. -/
structure PartialFieldSegment where
  id : Option String := none
  points : Option (List LatLngT) := none
  area : Option ℚ := none
  nameplate : Option ℚ := none
  moduleCount : Option ℕ := none
  azimuth : Option ℚ := none
  description : Option String := none
  rackingType : Option RackingType := none
  moduleTilt : Option ℚ := none
  moduleOrientation : Option ModOrientation := none
  rowSpacing : Option ℚ := none
  moduleSpacing : Option ℚ := none
  setback : Option ℚ := none
  surfaceHeight : Option ℚ := none
  rackingHeight : Option ℚ := none
  frameSizeUp : Option ℕ := none
  frameSizeWide : Option ℕ := none
  frameSpacing : Option ℚ := none
  spanRise : Option ℚ := none
  alignment : Option SegAlign := none
  moduleId : Option (Option String) := none
  moduleLayout : Option (List (List LatLngT)) := none
deriving DecidableEq

/-- The TypeScript object spread of DesignEditorPage line 132: fields present
in the update override the segment's fields. -/
def mergeSegment (s : FieldSegment) (u : PartialFieldSegment) : FieldSegment :=
  { id := u.id.getD s.id
    points := u.points.getD s.points
    area := u.area.getD s.area
    nameplate := u.nameplate.getD s.nameplate
    moduleCount := u.moduleCount.getD s.moduleCount
    azimuth := u.azimuth.getD s.azimuth
    description := u.description.getD s.description
    rackingType := u.rackingType.getD s.rackingType
    moduleTilt := u.moduleTilt.getD s.moduleTilt
    moduleOrientation := u.moduleOrientation.getD s.moduleOrientation
    rowSpacing := u.rowSpacing.getD s.rowSpacing
    moduleSpacing := u.moduleSpacing.getD s.moduleSpacing
    setback := u.setback.getD s.setback
    surfaceHeight := u.surfaceHeight.getD s.surfaceHeight
    rackingHeight := u.rackingHeight.getD s.rackingHeight
    frameSizeUp := u.frameSizeUp.getD s.frameSizeUp
    frameSizeWide := u.frameSizeWide.getD s.frameSizeWide
    frameSpacing := u.frameSpacing.getD s.frameSpacing
    spanRise := u.spanRise.getD s.spanRise
    alignment := u.alignment.getD s.alignment
    moduleId := u.moduleId.getD s.moduleId
    moduleLayout := u.moduleLayout.getD s.moduleLayout }

/-- The fresh segment built by handleStopDrawing (DesignEditorPage lines
99-120) from the drawn points, the timestamp id and the running count. -/
def newDrawnSegment (stamp : String) (pts : List LatLngT) (n : ℕ) : FieldSegment :=
  { id := stamp
    points := pts
    area := 0
    nameplate := 0
    moduleCount := 0
    azimuth := 180
    description := "Field Segment " ++ toString (n + 1)
    rackingType := RackingType.FixedTilt
    moduleTilt := 10
    moduleOrientation := ModOrientation.Portrait
    rowSpacing := 2
    moduleSpacing := 41 / 1000
    setback := 0
    surfaceHeight := 0
    rackingHeight := 0
    frameSizeUp := 1
    frameSizeWide := 1
    frameSpacing := 0
    spanRise := 0
    alignment := SegAlign.center
    moduleId := none
    moduleLayout := [] }

/-- Engine output, FieldSegmentLayer line 294 destructures it as layout,
count, nameplate, azimuth. -/
structure LayoutResult where
  layout : List (List LatLngT)
  count : ℕ
  nameplate : ℚ
  azimuth : ℚ
deriving DecidableEq

/-- Step 10 of the spec's Packer: accumulate the surviving footprints; the
count is their number and the nameplate is count times wattage over 1000. -/
def finishLayout (foots : List (List LatLngT)) (wattage az : ℚ) : LayoutResult :=
  { layout := foots
    count := foots.length
    nameplate := (foots.length : ℚ) * wattage / 1000
    azimuth := az }

/-- Modelled from the spec: section 4.6 step 10, the input azimuth reduced
into the interval from 0 inclusive to 360 exclusive. -/
def normalizeAzimuth (az : ℚ) : ℚ := az - 360 * ((⌊az / 360⌋ : ℤ) : ℚ)

/-- Modelled from the spec: section 4.6 steps 2 to 9 of the missing
src/utils/geometry.ts.  The buildable region is projected about its
centroid, rotated into the azimuth-aligned frame, its bounding box is tiled
with frames of modules on the computed pitches starting from the alignment
anchor, and candidate footprints are kept only when all four corners pass
the point-in-polygon test; survivors are rotated back and unprojected. -/
def packFootprints (s : FieldSegment) (m : PVModule) (boundary : List LatLngT) :
    List (List LatLngT) :=
  let a := centroid boundary
  let pl := boundary.map (fun p => toPlanar p a)
  let az := normalizeAzimuth s.azimuth
  let co := cosQ az
  let sn := sinQ az
  let rot := fun (p : PlanarPt) => (co * p.1 + sn * p.2, -sn * p.1 + co * p.2)
  let unrot := fun (p : PlanarPt) => (co * p.1 - sn * p.2, sn * p.1 + co * p.2)
  let rpl := pl.map rot
  match (rpl.map Prod.fst).min?, (rpl.map Prod.fst).max?,
      (rpl.map Prod.snd).min?, (rpl.map Prod.snd).max? with
  | some minX, some maxX, some minY, some maxY =>
    let dims := match s.moduleOrientation with
      | ModOrientation.Portrait => (m.width, m.modLength)
      | ModOrientation.Landscape => (m.modLength, m.width)
    let mw := dims.1 * FEET_TO_METERS
    let planDepth := match s.rackingType with
      | RackingType.FixedTilt => dims.2 * FEET_TO_METERS * cosQ s.moduleTilt
      | RackingType.Flat => dims.2 * FEET_TO_METERS
    let shadeClear := match s.rackingType with
      | RackingType.FixedTilt => dims.2 * FEET_TO_METERS * sinQ s.moduleTilt
      | RackingType.Flat => 0
    let msp := s.moduleSpacing * FEET_TO_METERS
    let frameW := (s.frameSizeWide : ℚ) * mw + ((s.frameSizeWide : ℚ) - 1) * msp
    let frameH := (s.frameSizeUp : ℚ) * planDepth + ((s.frameSizeUp : ℚ) - 1) * msp
    let stepX := frameW + s.frameSpacing * FEET_TO_METERS
    let stepY := frameH + shadeClear + s.rowSpacing * FEET_TO_METERS
    if stepX ≤ 0 ∨ stepY ≤ 0 ∨ mw ≤ 0 ∨ planDepth ≤ 0 then []
    else
      let nx := (⌊(maxX - minX) / stepX⌋ + 1).toNat
      let ny := (⌊(maxY - minY) / stepY⌋ + 1).toNat
      let startX := match s.alignment with
        | SegAlign.left => minX
        | SegAlign.top => minX
        | SegAlign.right => minX + ((maxX - minX) - (nx : ℚ) * stepX)
        | SegAlign.bottom => minX + ((maxX - minX) - (nx : ℚ) * stepX)
        | SegAlign.center => minX + ((maxX - minX) - (nx : ℚ) * stepX) / 2
      let startY := match s.alignment with
        | SegAlign.left => minY
        | SegAlign.top => minY
        | SegAlign.right => minY + ((maxY - minY) - (ny : ℚ) * stepY)
        | SegAlign.bottom => minY + ((maxY - minY) - (ny : ℚ) * stepY)
        | SegAlign.center => minY + ((maxY - minY) - (ny : ℚ) * stepY) / 2
      let frameModules := fun (fx fy : ℚ) =>
        (List.range s.frameSizeUp).flatMap (fun r =>
          (List.range s.frameSizeWide).map (fun c =>
            ((fx + (c : ℚ) * (mw + msp), fy + (r : ℚ) * (planDepth + msp)),
             (fx + (c : ℚ) * (mw + msp) + mw,
              fy + (r : ℚ) * (planDepth + msp) + planDepth))))
      let candidates := (List.range nx).flatMap (fun ix =>
        (List.range ny).flatMap (fun iy =>
          (frameModules (startX + (ix : ℚ) * stepX) (startY + (iy : ℚ) * stepY)).map
            (fun c =>
              [(c.1.1, c.1.2), (c.2.1, c.1.2), (c.2.1, c.2.2), (c.1.1, c.2.2)])))
      let kept := candidates.filter (fun corners =>
        corners.all (fun q => isPointInPolygon q rpl))
      kept.map (fun corners => corners.map (fun q => toGeo (unrot q) a))
  | _, _, _, _ => []

/-- Modelled from the spec: section 4.6 Module Layout Packer of the missing
src/utils/geometry.ts (calculateAdvancedModuleLayout).  A zero-dimension
module or an empty buildable region short-circuits to the empty layout; the
live map argument is unused, per the anchor-only projection contract. -/
def calculateAdvancedModuleLayout (s : FieldSegment) (m : PVModule) (v : MapView) :
    LayoutResult :=
  if m.width ≤ 0 ∨ m.modLength ≤ 0 then
    finishLayout [] m.wattage (normalizeAzimuth s.azimuth)
  else if (calculateInsetPolygon s.points s.setback v).length < 3 then
    finishLayout [] m.wattage (normalizeAzimuth s.azimuth)
  else
    finishLayout (packFootprints s m (calculateInsetPolygon s.points s.setback v))
      m.wattage (normalizeAzimuth s.azimuth)

/-- Recompute effect of FieldSegmentLayer (DesignEditorPage lines 289-303):
the returned pair is the update passed to onUpdate (none when no update is
written) and whether calculateAdvancedModuleLayout was invoked. -/
def fieldSegmentRecompute (s : FieldSegment) (ms : List PVModule) (v : MapView) :
    Option PartialFieldSegment × Bool :=
  match ms.find? (fun m => (some m.id : Option String) == s.moduleId) with
  | some m =>
    (some { area := some (calculatePolygonArea s.points v)
            moduleLayout := some (calculateAdvancedModuleLayout s m v).layout
            moduleCount := some (calculateAdvancedModuleLayout s m v).count
            nameplate := some (calculateAdvancedModuleLayout s m v).nameplate
            azimuth := some (calculateAdvancedModuleLayout s m v).azimuth }, true)
  | none =>
    if 0 < s.moduleCount ∨ s.moduleLayout ≠ [] then
      (some { area := some (calculatePolygonArea s.points v)
              moduleLayout := some []
              moduleCount := some 0
              nameplate := some 0 }, false)
    else if |calculatePolygonArea s.points v - s.area| > 1 / 10 then
      (some { area := some (calculatePolygonArea s.points v) }, false)
    else (none, false)

/-- The editor state touched by handleUpdateSegment. -/
structure EditorState where
  fieldSegments : List FieldSegment
  selectedSegment : Option FieldSegment
deriving DecidableEq

/-- handleUpdateSegment (DesignEditorPage lines 131-139): map the merge over
the list, and when the selected segment carries the updated id, reselect the
result of find on the updated list (null when absent). -/
def handleUpdateSegment (st : EditorState) (sid : String) (u : PartialFieldSegment) :
    EditorState :=
  { fieldSegments := st.fieldSegments.map
      (fun seg => if seg.id == sid then mergeSegment seg u else seg)
    selectedSegment :=
      match st.selectedSegment with
      | some sel =>
        if sel.id == sid then
          (st.fieldSegments.map
            (fun seg => if seg.id == sid then mergeSegment seg u else seg)).find?
            (fun seg => seg.id == sid)
        else some sel
      | none => none }

/-- Normalized screen-space edge normal of renderLengthMarker
(FieldSegmentLayer lines 328-333): rotate the container-space edge vector a
quarter turn and divide by its length, zero when the length is zero. -/
def edgeUnitNormal (p1 p2 : LatLngT) (v : MapView) : PlanarPt :=
  if 0 < ratSqrt
      ((-((v.latLngToContainerPoint p2).2 - (v.latLngToContainerPoint p1).2)) ^ 2 +
        ((v.latLngToContainerPoint p2).1 - (v.latLngToContainerPoint p1).1) ^ 2) then
    psmul
      (1 / ratSqrt
        ((-((v.latLngToContainerPoint p2).2 - (v.latLngToContainerPoint p1).2)) ^ 2 +
          ((v.latLngToContainerPoint p2).1 - (v.latLngToContainerPoint p1).1) ^ 2))
      (-((v.latLngToContainerPoint p2).2 - (v.latLngToContainerPoint p1).2),
        (v.latLngToContainerPoint p2).1 - (v.latLngToContainerPoint p1).1)
  else (0, 0)

/-- Label position of renderLengthMarker (FieldSegmentLayer lines 320-353):
the midpoint in container space is offset 20 pixels along the normalized
edge normal, flipped to the opposite side when the polygon has more than two
points and the offset point falls inside it, then unprojected. -/
def renderLengthMarkerPos (p1 p2 : LatLngT) (polygonPoints : List LatLngT)
    (v : MapView) : LatLngT :=
  v.containerPointToLatLng
    (if 2 < polygonPoints.length ∧
        isPointInPolygon
          (padd (v.latLngToContainerPoint (getMidpoint p1 p2))
            (psmul 20 (edgeUnitNormal p1 p2 v)))
          (polygonPoints.map v.latLngToContainerPoint) = true then
      psub (v.latLngToContainerPoint (getMidpoint p1 p2))
        (psmul 20 (edgeUnitNormal p1 p2 v))
    else
      padd (v.latLngToContainerPoint (getMidpoint p1 p2))
        (psmul 20 (edgeUnitNormal p1 p2 v)))

/-- Ring builder shared by the 3D viewer's segmentsGeoJSON (part_000 lines
44-48) and modulesGeoJSON (lines 71-75): swap each (lat, lng) to (lng, lat)
and append the swapped first point; an empty list gives an empty ring. -/
def closedSwappedRing (pts : List LatLngT) : List (ℚ × ℚ) :=
  match pts with
  | [] => []
  | p :: _ => pts.map (fun q => (q.2, q.1)) ++ [(p.2, p.1)]

/-- Polygon rings of the 3D viewer's segmentsGeoJSON feature collection. -/
def segmentsGeoJSONRings (segs : List FieldSegment) : List (List (ℚ × ℚ)) :=
  segs.map (fun s => closedSwappedRing s.points)

/-- Polygon rings of the 3D viewer's modulesGeoJSON feature collection. -/
def modulesGeoJSONRings (segs : List FieldSegment) : List (List (ℚ × ℚ)) :=
  segs.flatMap (fun s => s.moduleLayout.map (fun mp => closedSwappedRing mp))

/-- One degree of latitude scaled so the local frame sees one meter. -/
def h1 : ℚ := 1 / 111320

/-- A two-by-two meter square boundary centered on the equator. -/
def sqB : List LatLngT := [(-h1, -h1), (-h1, h1), (h1, h1), (h1, -h1)]

/-- A nondegenerate triangle boundary centered on the equator. -/
def triB : List LatLngT := [(-h1, 0), (h1, 0), (0, 3 * h1)]

/-- A catalog module sample for witnesses. -/
def pvm1 : PVModule := { id := "m1", width := 13 / 4, modLength := 13 / 2, wattage := 400 }

/-- A freshly drawn two-point segment sample. -/
def seg3 : FieldSegment := newDrawnSegment "s3" [(0, 0), (1, 1)] 0

/-- A segment sample with two boundary points and one module footprint. -/
def seg9 : FieldSegment :=
  { newDrawnSegment "s9" [(1, 2), (3, 4)] 0 with moduleLayout := [[(5, 6)]] }

/-- A segment sample named by id a. -/
def seg10 : FieldSegment := newDrawnSegment "a" [] 0

/-- An update carrying a new id. -/
def upd10 : PartialFieldSegment := { id := some "b" }

/-- An update not carrying an id. -/
def upd10b : PartialFieldSegment := { area := some 5 }

/-- Editor state sample for the update handler. -/
def st10 : EditorState := { fieldSegments := [seg10], selectedSegment := some seg10 }

theorem sa2_short (l : List PlanarPt) (h : l.length < 3) : signedArea2 l = 0 := by
  match l with
  | [] => rfl
  | [a] =>
    simp [signedArea2, edgePairs, cross]
  | [a, b] =>
    simp [signedArea2, edgePairs, cross]
  | a :: b :: c :: t =>
    simp only [List.length_cons] at h
    omega

theorem sa2_fst_zero (l : List PlanarPt) (h : ∀ p ∈ l, p.1 = 0) :
    signedArea2 l = 0 := by
  unfold signedArea2
  apply List.sum_eq_zero
  intro x hx
  simp only [List.mem_map] at hx
  obtain ⟨e, he, rfl⟩ := hx
  obtain ⟨e1, e2⟩ := e
  match l, he with
  | p :: rest, he =>
    have hm := List.of_mem_zip he
    have h1 : e1.1 = 0 := h e1 hm.1
    have h2 : e2.1 = 0 := by
      rcases List.mem_append.mp hm.2 with h3 | h3
      · exact h e2 (List.mem_cons_of_mem p h3)
      · have : e2 = p := List.mem_singleton.mp h3
        exact this ▸ h p (List.mem_cons_self p rest)
    simp [cross, h1, h2]

theorem proj_fst_zero (pts : List LatLngT) (hc : cosQ (centroid pts).1 = 0) :
    ∀ q ∈ projectAll pts, q.1 = 0 := by
  intro q hq
  simp only [projectAll, List.mem_map] at hq
  obtain ⟨p, hp, rfl⟩ := hq
  simp [toPlanar, hc]

theorem toGeo_toPlanar (p a : LatLngT) (hc : cosQ a.1 ≠ 0) :
    toGeo (toPlanar p a) a = p := by
  obtain ⟨plat, plng⟩ := p
  obtain ⟨alat, alng⟩ := a
  simp only [toGeo, toPlanar, METERS_PER_DEGREE, Prod.mk.injEq]
  constructor
  · field_simp
  · field_simp
    ring

theorem miterVertex_zero (s : ℚ) (pp p pn : PlanarPt) :
    miterVertex s 0 pp p pn = p := by
  have hA : ∀ (x n : PlanarPt), padd x (psmul 0 n) = x := by
    intro x n
    simp [padd, psmul]
  unfold miterVertex lineIntersect
  simp only [hA]
  by_cases hd : cross (psub p pp) (psub pn p) = 0
  · rw [if_pos hd]
  · rw [if_neg hd, div_self hd]
    refine Prod.ext ?_ ?_ <;> simp [padd, psmul, psub]

theorem rotL_length {α : Type} (l : List α) : (rotL l).length = l.length := by
  match l with
  | [] => rfl
  | a :: t => simp [rotL]

theorem rotR_length {α : Type} (l : List α) : (rotR l).length = l.length := by
  unfold rotR
  rw [List.length_reverse, rotL_length, List.length_reverse]

theorem zip3_miter (s : ℚ) :
    ∀ (ys xs zs : List PlanarPt), xs.length = ys.length → zs.length = ys.length →
      (zip3 xs ys zs).map (fun t => miterVertex s 0 t.1 t.2.1 t.2.2) = ys := by
  intro ys
  induction ys with
  | nil =>
    intro xs zs h1 h2
    cases xs with
    | cons x xs2 => simp at h1
    | nil =>
      cases zs with
      | cons z zs2 => simp at h2
      | nil => rfl
  | cons y ys ih =>
    intro xs zs h1 h2
    cases xs with
    | nil => simp at h1
    | cons x xs2 =>
      cases zs with
      | nil => simp at h2
      | cons z zs2 =>
        simp only [List.length_cons, Nat.add_right_cancel_iff] at h1 h2
        simp only [zip3, List.map_cons]
        rw [miterVertex_zero, ih xs2 zs2 h1 h2]

theorem miterOffset_zero (pl : List PlanarPt) : miterOffset pl 0 = pl := by
  unfold miterOffset
  exact zip3_miter _ pl (rotR pl) (rotL pl) (rotR_length pl) (rotL_length pl)

theorem zip3_length_eq {α β γ : Type} :
    ∀ (ys : List β) (xs : List α) (zs : List γ), xs.length = ys.length →
      zs.length = ys.length → (zip3 xs ys zs).length = ys.length := by
  intro ys
  induction ys with
  | nil =>
    intro xs zs h1 h2
    cases xs with
    | cons x xs2 => simp at h1
    | nil =>
      cases zs with
      | cons z zs2 => simp at h2
      | nil => rfl
  | cons y ys ih =>
    intro xs zs h1 h2
    cases xs with
    | nil => simp at h1
    | cons x xs2 =>
      cases zs with
      | nil => simp at h2
      | cons z zs2 =>
        simp only [List.length_cons, Nat.add_right_cancel_iff] at h1 h2
        simp only [zip3, List.length_cons]
        rw [ih xs2 zs2 h1 h2]

theorem miterOffset_length (pl : List PlanarPt) (d : ℚ) :
    (miterOffset pl d).length = pl.length := by
  unfold miterOffset
  rw [List.length_map]
  exact zip3_length_eq pl (rotR pl) (rotL pl) (rotR_length pl) (rotL_length pl)

theorem inset_nil_or_length (pts : List LatLngT) (b : ℚ) (v : MapView) :
    calculateInsetPolygon pts b v = [] ∨
      (calculateInsetPolygon pts b v).length = pts.length := by
  unfold calculateInsetPolygon
  split
  · exact Or.inl rfl
  · right
    rw [List.length_map, miterOffset_length]
    unfold projectAll
    rw [List.length_map]

/-- C1: the layout computation is pure and deterministic; two invocations of
calculateAdvancedModuleLayout (and of calculatePolygonArea) with identical
Segment and Module agree in full, and the result does not depend on the live
map viewport argument. -/
theorem c1_layout_pure (s : FieldSegment) (m : PVModule) (pts : List LatLngT)
    (v w : MapView) :
    calculateAdvancedModuleLayout s m v = calculateAdvancedModuleLayout s m w ∧
      calculatePolygonArea pts v = calculatePolygonArea pts w :=
  ⟨rfl, rfl⟩

/-- C3: a boundary with fewer than three points yields area zero and an empty
layout with count zero, not an error. -/
theorem c3_degenerate_boundary (s : FieldSegment) (m : PVModule) (v : MapView)
    (h : s.points.length < 3) :
    calculatePolygonArea s.points v = 0 ∧
      (calculateAdvancedModuleLayout s m v).count = 0 ∧
      (calculateAdvancedModuleLayout s m v).layout = [] := by
  have hlen : (projectAll s.points).length < 3 := by
    unfold projectAll
    rw [List.length_map]
    exact h
  have harea : signedArea2 (projectAll s.points) = 0 := sa2_short _ hlen
  have hres : calculateAdvancedModuleLayout s m v =
      finishLayout [] m.wattage (normalizeAzimuth s.azimuth) := by
    unfold calculateAdvancedModuleLayout
    by_cases h1 : m.width ≤ 0 ∨ m.modLength ≤ 0
    · rw [if_pos h1]
    · rw [if_neg h1, if_pos]
      rcases inset_nil_or_length s.points s.setback v with he | hl
      · rw [he]
        simp
      · omega
  refine ⟨?_, by rw [hres]; rfl, by rw [hres]; rfl⟩
  unfold calculatePolygonArea
  rw [harea]
  simp

/-- C3 witness: a two-point boundary gives area zero, module count zero and
an empty layout. -/
theorem c3_witness :
    seg3.points.length < 3 ∧
      calculatePolygonArea seg3.points dummyView = 0 ∧
        (calculateAdvancedModuleLayout seg3 pvm1 dummyView).count = 0 ∧
        (calculateAdvancedModuleLayout seg3 pvm1 dummyView).layout = [] :=
  ⟨by decide, c3_degenerate_boundary seg3 pvm1 dummyView (by decide)⟩

/-- C4 counterexample: the claim that inset at distance zero is the identity
for every boundary fails on a degenerate (collinear, zero-area) boundary of
three distinct points, where the collapse guard of section 4.5 returns the
empty polygon instead of the original. -/
theorem c4_counterexample :
    calculateInsetPolygon [((-1 : ℚ), (-1 : ℚ)), (0, 0), (1, 1)] 0 dummyView = [] ∧
      ([((-1 : ℚ), (-1 : ℚ)), (0, 0), (1, 1)] : List LatLngT) ≠ [] := by
  constructor
  · with_unfolding_all decide
  · with_unfolding_all decide

/-- C4 (amended): inset at distance zero is the identity for every boundary
whose projected polygon has nonzero signed area; a zero-area boundary is
instead collapsed to the empty polygon by the guard of section 4.5. -/
theorem c4_inset_zero_identity (pts : List LatLngT) (v : MapView)
    (h : signedArea2 (projectAll pts) ≠ 0) :
    calculateInsetPolygon pts 0 v = pts := by
  have hz : (0 : ℚ) * FEET_TO_METERS = 0 := zero_mul _
  unfold calculateInsetPolygon
  rw [hz, miterOffset_zero]
  rw [if_neg]
  · have hc : cosQ (centroid pts).1 ≠ 0 := by
      intro hc0
      exact h (sa2_fst_zero _ (proj_fst_zero pts hc0))
    unfold projectAll
    rw [List.map_map]
    conv_rhs => rw [← List.map_id pts]
    apply List.map_congr_left
    intro p hp
    exact toGeo_toPlanar p (centroid pts) hc
  · push_neg
    exact ⟨h, mul_self_nonneg _⟩

/-- C4 witness: on a nondegenerate triangle the inset at distance zero is the
original boundary. -/
theorem c4_witness :
    signedArea2 (projectAll triB) ≠ 0 ∧
      calculateInsetPolygon triB 0 dummyView = triB :=
  ⟨by with_unfolding_all decide,
    c4_inset_zero_identity triB dummyView (by with_unfolding_all decide)⟩

/-- C5: evaluating the modelled section 4.5 offset algorithm at a square
boundary of two meters side with a ten-foot setback shows the inset polygon's
area exceeding the boundary's area, contradicting the claimed inequality:
the inward offset eats through the square, the resulting inverted polygon
keeps the original orientation, and the signed-area sign guard fails to
collapse it to the empty polygon. -/
theorem c5_inset_area_growth :
    (0 : ℚ) ≤ 10 ∧
      calculatePolygonArea sqB dummyView <
        calculatePolygonArea (calculateInsetPolygon sqB 10 dummyView) dummyView := by
  constructor
  · with_unfolding_all decide
  · with_unfolding_all decide

/-- C7: every LayoutResult satisfies nameplate equal to count times the
module wattage over 1000, with a natural-number count; the nameplate is
nonnegative whenever the wattage is. -/
theorem c7_nameplate (s : FieldSegment) (m : PVModule) (v : MapView) :
    (calculateAdvancedModuleLayout s m v).nameplate =
        ((calculateAdvancedModuleLayout s m v).count : ℚ) * m.wattage / 1000 ∧
      (0 ≤ m.wattage → 0 ≤ (calculateAdvancedModuleLayout s m v).nameplate) := by
  have key : ∃ foots, calculateAdvancedModuleLayout s m v =
      finishLayout foots m.wattage (normalizeAzimuth s.azimuth) := by
    unfold calculateAdvancedModuleLayout
    split
    · exact ⟨[], rfl⟩
    · split
      · exact ⟨[], rfl⟩
      · exact ⟨_, rfl⟩
  obtain ⟨foots, hf⟩ := key
  rw [hf]
  refine ⟨rfl, fun hw => ?_⟩
  show (0 : ℚ) ≤ (foots.length : ℚ) * m.wattage / 1000
  exact div_nonneg (mul_nonneg (Nat.cast_nonneg _) hw) (by norm_num)

/-- C7 witness: on a concrete segment and module with nonnegative wattage the
nameplate is nonnegative. -/
theorem c7_witness :
    (0 : ℚ) ≤ pvm1.wattage ∧
      0 ≤ (calculateAdvancedModuleLayout seg3 pvm1 dummyView).nameplate :=
  ⟨by with_unfolding_all decide,
    (c7_nameplate seg3 pvm1 dummyView).2 (by with_unfolding_all decide)⟩

/-- C8: the distance helper is the planar Euclidean distance of the
projections into the local frame anchored at the first point, converted
meters to feet, and does not depend on the live map viewport. -/
theorem c8_distance_planar (p1 p2 : LatLngT) (v w : MapView) :
    calculateDistanceInFeet p1 p2 v =
        FEET_PER_METER *
          ratSqrt ((toPlanar p2 p1).1 ^ 2 + (toPlanar p2 p1).2 ^ 2) ∧
      calculateDistanceInFeet p1 p2 v = calculateDistanceInFeet p1 p2 w := by
  constructor
  · have h0 : toPlanar p1 p1 = (0, 0) := by
      unfold toPlanar
      simp
    unfold calculateDistanceInFeet
    rw [h0]
    simp
    ring
  · rfl

/-- C2: when no catalog module matches the segment's moduleId, the recompute
effect never invokes the Packer, and any update it writes carries the
freshly computed area. -/
theorem c2_no_module_skips_packer (s : FieldSegment) (ms : List PVModule)
    (v : MapView)
    (h : ms.find? (fun m => (some m.id : Option String) == s.moduleId) = none) :
    (fieldSegmentRecompute s ms v).2 = false ∧
      ∀ u, (fieldSegmentRecompute s ms v).1 = some u →
        u.area = some (calculatePolygonArea s.points v) := by
  unfold fieldSegmentRecompute
  rw [h]
  by_cases h1 : 0 < s.moduleCount ∨ s.moduleLayout ≠ []
  · rw [if_pos h1]
    refine ⟨rfl, fun u hu => ?_⟩
    obtain rfl := Option.some.inj hu
    rfl
  · rw [if_neg h1]
    by_cases h2 : |calculatePolygonArea s.points v - s.area| > 1 / 10
    · rw [if_pos h2]
      refine ⟨rfl, fun u hu => ?_⟩
      obtain rfl := Option.some.inj hu
      rfl
    · rw [if_neg h2]
      exact ⟨rfl, fun u hu => by simp at hu⟩

/-- C2 witness: with an empty catalog the module lookup fails and the Packer
is not invoked. -/
theorem c2_witness :
    ([] : List PVModule).find?
        (fun m => (some m.id : Option String) == seg3.moduleId) = none ∧
      (fieldSegmentRecompute seg3 [] dummyView).2 = false :=
  ⟨rfl, (c2_no_module_skips_packer seg3 [] dummyView rfl).1⟩

/-- C6: for an edge of a polygon with more than two points the label sits at
the container-space midpoint offset twenty pixels along the unit normal,
flipped to the opposite side exactly when the offset point lies inside the
polygon per the point-in-polygon test. -/
theorem c6_label_side_selection (p1 p2 : LatLngT) (poly : List LatLngT)
    (v : MapView) (h : 2 < poly.length) :
    (isPointInPolygon
          (padd (v.latLngToContainerPoint (getMidpoint p1 p2))
            (psmul 20 (edgeUnitNormal p1 p2 v)))
          (poly.map v.latLngToContainerPoint) = true →
        renderLengthMarkerPos p1 p2 poly v =
          v.containerPointToLatLng
            (psub (v.latLngToContainerPoint (getMidpoint p1 p2))
              (psmul 20 (edgeUnitNormal p1 p2 v)))) ∧
      (isPointInPolygon
          (padd (v.latLngToContainerPoint (getMidpoint p1 p2))
            (psmul 20 (edgeUnitNormal p1 p2 v)))
          (poly.map v.latLngToContainerPoint) = false →
        renderLengthMarkerPos p1 p2 poly v =
          v.containerPointToLatLng
            (padd (v.latLngToContainerPoint (getMidpoint p1 p2))
              (psmul 20 (edgeUnitNormal p1 p2 v)))) := by
  constructor
  · intro hin
    unfold renderLengthMarkerPos
    rw [if_pos ⟨h, hin⟩]
  · intro hout
    unfold renderLengthMarkerPos
    rw [if_neg]
    intro hc
    simp [hout] at hc

/-- C6 witness: on a concrete triangle and edge the offset point lies outside
and the label stays on the positive-normal side. -/
theorem c6_witness :
    2 < ([((0 : ℚ), (0 : ℚ)), (4, 0), (0, 4)] : List LatLngT).length ∧
      isPointInPolygon
          (padd (dummyView.latLngToContainerPoint (getMidpoint (0, 0) (4, 0)))
            (psmul 20 (edgeUnitNormal (0, 0) (4, 0) dummyView)))
          (([((0 : ℚ), (0 : ℚ)), (4, 0), (0, 4)] : List LatLngT).map
            dummyView.latLngToContainerPoint) = false ∧
      renderLengthMarkerPos (0, 0) (4, 0)
          [((0 : ℚ), (0 : ℚ)), (4, 0), (0, 4)] dummyView =
        dummyView.containerPointToLatLng
          (padd (dummyView.latLngToContainerPoint (getMidpoint (0, 0) (4, 0)))
            (psmul 20 (edgeUnitNormal (0, 0) (4, 0) dummyView))) :=
  ⟨by decide, by with_unfolding_all decide,
    (c6_label_side_selection (0, 0) (4, 0) _ dummyView (by decide)).2
      (by with_unfolding_all decide)⟩

theorem closedSwappedRing_cons (p : LatLngT) (rest : List LatLngT) :
    closedSwappedRing (p :: rest) =
        (p :: rest).map (fun q => (q.2, q.1)) ++ [(p.2, p.1)] ∧
      (closedSwappedRing (p :: rest)).length = (p :: rest).length + 1 ∧
      (closedSwappedRing (p :: rest)).head? = some (p.2, p.1) ∧
      (closedSwappedRing (p :: rest)).getLast? = some (p.2, p.1) := by
  refine ⟨rfl, ?_, ?_, ?_⟩
  · simp [closedSwappedRing]
  · simp [closedSwappedRing]
  · show (((p :: rest).map (fun q => (q.2, q.1))) ++ [(p.2, p.1)]).getLast? =
      some (p.2, p.1)
    exact List.getLast?_concat _

/-- C9: every ring emitted by the 3D viewer's segmentsGeoJSON and
modulesGeoJSON builders is coordinate-swapped and explicitly closed: a
nonempty point list becomes its swapped points with the swapped first point
appended, so the ring's head equals its last element and its length is the
point count plus one; an empty point list yields an empty ring. -/
theorem c9_rings (segs : List FieldSegment) (s : FieldSegment) (hs : s ∈ segs) :
    closedSwappedRing s.points ∈ segmentsGeoJSONRings segs ∧
      (∀ mp ∈ s.moduleLayout, closedSwappedRing mp ∈ modulesGeoJSONRings segs) ∧
      (s.points = [] → closedSwappedRing s.points = []) ∧
      (∀ p rest, s.points = p :: rest →
        closedSwappedRing s.points =
            s.points.map (fun q => (q.2, q.1)) ++ [(p.2, p.1)] ∧
          (closedSwappedRing s.points).length = s.points.length + 1 ∧
          (closedSwappedRing s.points).head? = some (p.2, p.1) ∧
          (closedSwappedRing s.points).getLast? = some (p.2, p.1)) ∧
      (∀ mp, mp ∈ s.moduleLayout →
        (mp = [] → closedSwappedRing mp = []) ∧
        ∀ p rest, mp = p :: rest →
          closedSwappedRing mp = mp.map (fun q => (q.2, q.1)) ++ [(p.2, p.1)] ∧
            (closedSwappedRing mp).length = mp.length + 1 ∧
            (closedSwappedRing mp).head? = some (p.2, p.1) ∧
            (closedSwappedRing mp).getLast? = some (p.2, p.1)) := by
  refine ⟨?_, ?_, ?_, ?_, ?_⟩
  · simp only [segmentsGeoJSONRings]
    exact List.mem_map_of_mem _ hs
  · intro mp hmp
    simp only [modulesGeoJSONRings]
    exact List.mem_flatMap.mpr ⟨s, hs, List.mem_map_of_mem _ hmp⟩
  · intro hnil
    rw [hnil]
    rfl
  · intro p rest hcons
    rw [hcons]
    exact closedSwappedRing_cons p rest
  · intro mp hmp
    refine ⟨fun hnil => by rw [hnil]; rfl, fun p rest hcons => ?_⟩
    rw [hcons]
    exact closedSwappedRing_cons p rest

/-- C9 witness: on a concrete two-point segment with one module footprint the
emitted ring is the swapped closed ring of length three. -/
theorem c9_witness :
    seg9 ∈ [seg9] ∧
      seg9.points = ((1 : ℚ), (2 : ℚ)) :: [((3 : ℚ), (4 : ℚ))] ∧
      closedSwappedRing seg9.points = [((2 : ℚ), (1 : ℚ)), (4, 3), (2, 1)] ∧
      (closedSwappedRing seg9.points).getLast? = some ((2 : ℚ), (1 : ℚ)) := by
  have h := c9_rings [seg9] seg9 (List.mem_singleton.mpr rfl)
  have h4 := h.2.2.2.1 ((1 : ℚ), (2 : ℚ)) [((3 : ℚ), (4 : ℚ))] rfl
  exact ⟨List.mem_singleton.mpr rfl, rfl, h4.1.trans rfl, h4.2.2.2⟩

/-- C10 counterexample: an update that changes the id defeats the reselect:
the selected segment has the updated id, the list entry becomes the merged
segment, yet the new selection is none rather than the updated segment. -/
theorem c10_counterexample :
    seg10.id = "a" ∧ st10.selectedSegment = some seg10 ∧
      (handleUpdateSegment st10 "a" upd10).fieldSegments =
        [mergeSegment seg10 upd10] ∧
      (handleUpdateSegment st10 "a" upd10).selectedSegment = none ∧
      (handleUpdateSegment st10 "a" upd10).selectedSegment ≠
        some (mergeSegment seg10 upd10) := by
  have hsel : (handleUpdateSegment st10 "a" upd10).selectedSegment = none := by
    with_unfolding_all rfl
  refine ⟨rfl, rfl, by with_unfolding_all rfl, hsel, ?_⟩
  rw [hsel]
  intro hcon
  cases hcon

/-- C10 (amended): provided the update does not carry a new id,
handleUpdateSegment is frame-preserving: the list keeps its length and
order, entries with a different id are unchanged, the entry with the given
id becomes its merge with the update, a missing selection stays missing, a
selection with a different id is untouched, and a selection with the given
id is replaced by the merge of the first list entry bearing that id. -/
theorem c10_update_preserves_frame (st : EditorState) (sid : String)
    (u : PartialFieldSegment) (hid : u.id = none) :
    (handleUpdateSegment st sid u).fieldSegments.length =
        st.fieldSegments.length ∧
      (∀ i : ℕ, (handleUpdateSegment st sid u).fieldSegments[i]? =
        (st.fieldSegments[i]?).map
          (fun seg => if seg.id == sid then mergeSegment seg u else seg)) ∧
      (∀ i : ℕ, ∀ seg, st.fieldSegments[i]? = some seg → seg.id ≠ sid →
        (handleUpdateSegment st sid u).fieldSegments[i]? = some seg) ∧
      (st.selectedSegment = none →
        (handleUpdateSegment st sid u).selectedSegment = none) ∧
      (∀ sel, st.selectedSegment = some sel → sel.id ≠ sid →
        (handleUpdateSegment st sid u).selectedSegment = some sel) ∧
      (∀ sel tgt, st.selectedSegment = some sel → sel.id = sid →
        st.fieldSegments.find? (fun seg => seg.id == sid) = some tgt →
        (handleUpdateSegment st sid u).selectedSegment =
          some (mergeSegment tgt u)) := by
  have hmap : ∀ i : ℕ, (handleUpdateSegment st sid u).fieldSegments[i]? =
      (st.fieldSegments[i]?).map
        (fun seg => if seg.id == sid then mergeSegment seg u else seg) := by
    intro i
    simp [handleUpdateSegment, List.getElem?_map]
  have hidpres : ∀ seg : FieldSegment,
      (if seg.id == sid then mergeSegment seg u else seg).id = seg.id := by
    intro seg
    by_cases hc : seg.id == sid
    · rw [if_pos hc]
      simp [mergeSegment, hid]
    · rw [if_neg hc]
  refine ⟨?_, hmap, ?_, ?_, ?_, ?_⟩
  · simp [handleUpdateSegment]
  · intro i seg hi hne
    rw [hmap i, hi]
    simp [hne]
  · intro hn
    simp [handleUpdateSegment, hn]
  · intro sel hsel hne
    simp [handleUpdateSegment, hsel, hne]
  · intro sel tgt hsel heq hfind
    simp only [handleUpdateSegment, hsel]
    rw [if_pos (by simp [heq])]
    have hpred : ((fun seg : FieldSegment => seg.id == sid) ∘
        (fun seg => if seg.id == sid then mergeSegment seg u else seg)) =
        (fun seg : FieldSegment => seg.id == sid) := by
      funext seg
      simp only [Function.comp]
      rw [hidpres seg]
    rw [List.find?_map, hpred, hfind]
    have htgt := List.find?_some hfind
    simp only [] at htgt
    simp [htgt]
    intro hcontra
    exact absurd (by simpa using htgt) hcontra

/-- C10 witness: an id-free update on a selected singleton state reselects
the merged segment and preserves the frame. -/
theorem c10_witness :
    upd10b.id = none ∧
      st10.fieldSegments.find? (fun seg => seg.id == "a") = some seg10 ∧
      (handleUpdateSegment st10 "a" upd10b).selectedSegment =
        some (mergeSegment seg10 upd10b) :=
  ⟨rfl, rfl,
    (c10_update_preserves_frame st10 "a" upd10b rfl).2.2.2.2.2 seg10 seg10
      rfl rfl rfl⟩
